import Mathlib

/-!
Verification of the hot-module-reload compiler pass (src/index.ts).

The pass splits a script into a locals module and a main module.  We embed the
data model and the scope-aware rewriter shallowly:

* machine AST nodes become mutually inductive Lean types (`Expr`, `Stmt`,
  `LVal`, ...), each constructor carrying the original byte offsets that the
  source reads through `node.start!` / `node.end!`;
* the external `MagicString` patch buffer is modelled from the spec (section 6,
  Source Patch Buffer) as the original text plus the list of recorded edits;
* the mutable `Set<string>` scope snapshot becomes a `List String` with
  JS-`Set` observations (`contains` for `has`, filtering for `delete`); the
  in-place mutation performed by `processStmt` / `processVariableDeclaration` /
  `processDeclarationId` becomes explicit state passing, while `new Set(b)`
  clones are plain value copies;
* `throw new Error(msg)` becomes `Except.error` of an `Err` value; each `Err`
  constructor stands for one family of thrown message strings.
-/

/-- Error values thrown by the pass.  Constructor ↔ source message:
`noAppCallFound` ↔ "No app() call found";
`notImplemented what` ↔ "Not implemented: " ++ what;
`cannotImport` ↔ "Cannot import from app main";
`cannotExport` ↔ "Cannot export from app main";
`unsupportedBindingType t` ↔ "Unsupported binding type: " ++ t;
`unsupportedDeclarationType t` ↔ "Unsupported declaration type: " ++ t;
`restElementNotIdentifier` ↔ "Rest element must be an identifier";
`restElementNotIdentifierInDecl` ↔ "Rest element must be an identifier in variable decl";
`nativeCrash what` models a JavaScript runtime TypeError (not a thrown
`Error` of the pass itself), e.g. reading `.start` of `undefined`. -/
inductive Err : Type where
  | noAppCallFound
  | notImplemented (what : String)
  | cannotImport
  | cannotExport
  | unsupportedBindingType (t : String)
  | unsupportedDeclarationType (t : String)
  | restElementNotIdentifier
  | restElementNotIdentifierInDecl
  | nativeCrash (what : String)
deriving DecidableEq, Repr

/-- Declaration kinds of a `VariableDeclaration` (`statement.kind`). -/
inductive VarKind : Type where
  | kvar
  | klet
  | kconst
deriving DecidableEq, Repr

/-- The `importKind` of an `ImportDeclaration`: `type`-only or a value import. -/
inductive ImportKind : Type where
  | typeOnly
  | valueImport
deriving DecidableEq, Repr

/-- A top-level binding extracted by `getBindings` (interface `Binding`). -/
structure Binding : Type where
  name : String
  readonly : Bool
deriving DecidableEq, Repr

/-- One edit recorded against a `MagicString` buffer, keyed by original
offsets: `update s e text`, `remove s e`, or `append text`. -/
inductive Edit : Type where
  | update (s e : Nat) (text : String)
  | remove (s e : Nat)
  | append (text : String)
deriving DecidableEq, Repr

/-- Modelled from the spec: the external Source Patch Buffer (`MagicString`).
It wraps the original text and accumulates non-overlapping edits keyed by
original offsets.  We record the edit list; rendering is out of scope for the
claims, which are all about which edits were recorded. -/
structure MagicString : Type where
  original : String
  edits : List Edit
deriving DecidableEq, Repr

/-- `src.update(s, e, text)`: record a replace-range edit. -/
def MagicString.update (src : MagicString) (s e : Nat) (text : String) : MagicString :=
  { src with edits := src.edits ++ [Edit.update s e text] }

/-- `src.remove(s, e)`: record a remove-range edit. -/
def MagicString.remove (src : MagicString) (s e : Nat) : MagicString :=
  { src with edits := src.edits ++ [Edit.remove s e] }

/-- `src.append(text)`: record an append-at-end edit. -/
def MagicString.append (src : MagicString) (text : String) : MagicString :=
  { src with edits := src.edits ++ [Edit.append text] }

/-- `src.slice(s, e)`: read back an original offset range as literal text.
In the source this is called only on ranges no recorded edit overlaps, where
the edited slice equals the original slice. -/
def MagicString.slice (src : MagicString) (s e : Nat) : String :=
  ((src.original.data.drop s).take (e - s)).asString

/-- The scope snapshot: the JS `Set<string>` of rewritable names.  Observations
are membership (`Set.has` = `List.contains`) and deletion (`Set.delete` =
filtering the name out); clones (`new Set(b)`) are value copies. -/
abbrev StrSet := List String

/-- `bindings.delete(name)` on a JS `Set`. -/
def setDelete (bindings : StrSet) (name : String) : StrSet :=
  bindings.filter (fun m => m != name)

/-- The injected locals parameter name (`localsName` in the source). -/
def localsName : String := "__locals__"

/-- `getLocalsName(id)`: the parenthesized locals member access. -/
def getLocalsName (id : String) : String :=
  "(" ++ localsName ++ "." ++ id ++ ")"

mutual

/-- Expressions (the fragment of `t.Expression` exercised by the claims).
Every constructor carries the node's original offsets `s`, `e`. -/
inductive Expr : Type where
  | ident (name : String) (s e : Nat)
  | call (callee : Callee) (args : List Expr) (s e : Nat)
  | member (obj : Expr) (prop : Expr) (s e : Nat)
  | arrow (params : List LVal) (body : FnBody) (s e : Nat)
  | functionExpr (params : List LVal) (body : Stmt) (s e : Nat)
  | classExpr (s e : Nat)
  | binary (op : String) (left : Expr) (right : Expr) (s e : Nat)
  | numLit (value : Nat) (s e : Nat)

/-- A callee position: `t.Expression | t.V8IntrinsicIdentifier`. -/
inductive Callee : Type where
  | intrinsic (name : String)
  | expr (e : Expr)

/-- An arrow body: `t.BlockStatement | t.Expression`. -/
inductive FnBody : Type where
  | stmt (b : Stmt)
  | expr (e : Expr)

/-- Left-values (the fragment of `t.LVal` exercised by the claims). -/
inductive LVal : Type where
  | lident (name : String) (s e : Nat)
  | lmember (obj : Expr) (prop : Expr) (s e : Nat)
  | restElem (argument : LVal) (s e : Nat)
  | assignPat (left : LVal) (right : Expr) (s e : Nat)
  | arrayPat (elements : List (Option LVal)) (s e : Nat)

/-- One `t.VariableDeclarator`: a target pattern and an optional initializer. -/
inductive VarDeclarator : Type where
  | mk (id : LVal) (init : Option Expr)

/-- The `left` of a `ForOfStatement`: a `VariableDeclaration` or an `LVal`. -/
inductive ForLeft : Type where
  | fdecl (kind : VarKind) (declarations : List VarDeclarator)
  | flval (l : LVal)

/-- A `t.CatchClause`: optional parameter pattern and handler block. -/
inductive CatchClause : Type where
  | mk (param : Option LVal) (body : Stmt)

/-- Statements (the fragment of `t.Statement` exercised by the claims).
`tryStmt` fields mirror `block` / `handler` / `finalizer`; `forOf` keeps the
body field of the AST even though the source never processes it. -/
inductive Stmt : Type where
  | block (body : List Stmt)
  | exprStmt (e : Expr)
  | varDecl (kind : VarKind) (declarations : List VarDeclarator)
  | ret (argument : Option Expr)
  | funcDecl (params : List LVal) (body : Stmt)
  | tryStmt (blk : Stmt) (handler : Option CatchClause) (finalizer : Option Stmt)
  | forOf (left : ForLeft) (right : Expr) (body : Stmt)
  | classDecl
  | importDecl (importKind : ImportKind) (specifiers : List String)

end

/-- `node.start!` of an expression. -/
def Expr.startPos : Expr → Nat
  | .ident _ s _ => s
  | .call _ _ s _ => s
  | .member _ _ s _ => s
  | .arrow _ _ s _ => s
  | .functionExpr _ _ s _ => s
  | .classExpr s _ => s
  | .binary _ _ _ s _ => s
  | .numLit _ s _ => s

/-- `node.end!` of an expression. -/
def Expr.endPos : Expr → Nat
  | .ident _ _ e => e
  | .call _ _ _ e => e
  | .member _ _ _ e => e
  | .arrow _ _ _ e => e
  | .functionExpr _ _ _ e => e
  | .classExpr _ e => e
  | .binary _ _ _ _ e => e
  | .numLit _ _ e => e

mutual

/-- `isCalleeApp(callee)`: a callee is app-rooted if it is the identifier
`app`, a call whose callee is app-rooted, or a member access whose object is
app-rooted; a V8 intrinsic is not.  All other expression forms fall through
(the source returns `undefined`, falsy). -/
def isCalleeApp : Callee → Bool
  | .intrinsic _ => false
  | .expr e => isCalleeAppExpr e

/-- The expression half of `isCalleeApp` (the TS function takes the union
type `t.Expression | t.V8IntrinsicIdentifier`; we split it in two). -/
def isCalleeAppExpr : Expr → Bool
  | .ident name _ _ => name == "app"
  | .call c _ _ _ => isCalleeApp c
  | .member obj _ _ _ => isCalleeAppExpr obj
  | _ => false

end

/-- A top-level statement matches the entry-point scan of `parse` when it is a
bare call expression statement whose callee is app-rooted. -/
def isEntryStmt : Stmt → Bool
  | .exprStmt (.call callee _ _ _) => isCalleeApp callee
  | _ => false

/-- Result of `parse`: the statement list minus the entry statement, the
locals buffer, the entry call node and the main buffer. -/
structure ParseResult : Type where
  localsAst : List Stmt
  localsSrc : MagicString
  mainAst : Expr
  mainSrc : MagicString

/-- The scanning loop of `parse`: walk the statements in order looking for the
first bare call expression statement whose callee is app-rooted. -/
def parseLoop (src : String) (all : List Stmt) (i : Nat) : List Stmt → Except Err ParseResult
  | [] => .error .noAppCallFound
  | statement :: rest =>
    match statement with
    | .exprStmt (.call callee args s e) =>
      if isCalleeApp callee then
        .ok { localsAst := all.eraseIdx i
              localsSrc := { original := src, edits := [.remove s e] }
              mainAst := .call callee args s e
              mainSrc := { original := src, edits := [.remove 0 s, .remove e src.length] } }
      else parseLoop src all (i + 1) rest
    | _ => parseLoop src all (i + 1) rest

/-- `parse(src)`: locate the entry statement and pre-seed both buffers.  The
external parser (Babel) is out of scope: we take the parsed top-level
statement list together with the raw text. -/
def parse (statements : List Stmt) (src : String) : Except Err ParseResult :=
  parseLoop src statements 0 statements

/-- Bindings contributed by one declaration target (the `switch (id.type)` in
`getBindings`).  A member-expression target contributes the literal source
text of the target; an array pattern contributes nothing. -/
def getBindingsOfId (id : LVal) (ro : Bool) (localsSrc : MagicString) : Except Err (List Binding) :=
  match id with
  | .lident name _ _ => .ok [{ name := name, readonly := ro }]
  | .lmember _ _ s e => .ok [{ name := localsSrc.slice s e, readonly := ro }]
  | .arrayPat _ _ _ => .ok []
  | .restElem _ _ _ => .error (.unsupportedBindingType "RestElement")
  | .assignPat _ _ _ _ => .error (.unsupportedBindingType "AssignmentPattern")

/-- The declarator loop of `getBindings` for one `VariableDeclaration`. -/
def getBindingsOfDecls (ro : Bool) (decls : List VarDeclarator) (localsSrc : MagicString) :
    Except Err (List Binding) :=
  match decls with
  | [] => .ok []
  | .mk id _ :: rest =>
    getBindingsOfId id ro localsSrc >>= fun bs =>
    getBindingsOfDecls ro rest localsSrc >>= fun bs2 =>
    .ok (bs ++ bs2)

/-- `getBindings`: walk the top-level locals statements in order, collecting
bindings from variable declarations (readonly iff kind is `const`) and from
non-type import declarations (readonly, skipping a local name equal to
`app`).  All other statement kinds contribute nothing. -/
def getBindings (localsAst : List Stmt) (localsSrc : MagicString) : Except Err (List Binding) :=
  match localsAst with
  | [] => .ok []
  | statement :: rest =>
    match statement with
    | .varDecl kind decls =>
      getBindingsOfDecls (kind == .kconst) decls localsSrc >>= fun bs =>
      getBindings rest localsSrc >>= fun bs2 =>
      .ok (bs ++ bs2)
    | .importDecl k specifiers =>
      let bs :=
        if k == .typeOnly then []
        else (specifiers.filter (fun n => n != "app")).map
          (fun n => { name := n, readonly := true })
      getBindings rest localsSrc >>= fun bs2 =>
      .ok (bs ++ bs2)
    | _ => getBindings rest localsSrc

/-- `appendExport`: append the sealed accessor-object export to the locals
buffer (braces in the generated text are written with escapes). -/
def appendExport (localsSrc : MagicString) (bindings : List Binding) : MagicString :=
  let body := bindings.foldl
    (fun acc b =>
      if b.readonly then
        acc ++ b.name ++ ","
      else
        acc ++ "get " ++ b.name ++ "() \x7b return " ++ b.name ++ " \x7d," ++
          "set " ++ b.name ++ "(v) \x7b " ++ b.name ++ " = v \x7d,")
    ""
  localsSrc.append ("export default Object.seal(\x7b" ++ body ++ "\x7d)")

/-- `wrapMain`: replace the span from the call start to the first argument
start with the exported-function header, and remove the span from the first
argument end to the call end.  With zero arguments the source dereferences
`arguments[0]` unguarded, which is a JS runtime TypeError (`nativeCrash`). -/
def wrapMain (mainAst : Expr) (mainSrc : MagicString) : Except Err MagicString :=
  match mainAst with
  | .call _ args s e =>
    match args with
    | [] => .error (.nativeCrash "mainAst.arguments[0] is undefined")
    | a :: _ =>
      .ok (((mainSrc.update s a.startPos
        ("export default (" ++ localsName ++ ") =>")).remove a.endPos e))
  | _ => .error (.nativeCrash "mainAst is not a call expression")

mutual

/-- `processStmt`: rewrite one statement.  The mutable `bindings` set is
returned explicitly; `new Set(bindings)` clones are value copies whose later
state is dropped exactly where the source drops the clone. -/
def processStmt (ast : Stmt) (src : MagicString) (bindings : StrSet) :
    Except Err (MagicString × StrSet) :=
  match ast with
  | .block body =>
    let innerBindings := bindings
    processStmtList body src innerBindings >>= fun p => .ok (p.1, bindings)
  | .exprStmt e =>
    processExpr e src bindings >>= fun src1 => .ok (src1, bindings)
  | .varDecl _ declarations => processVariableDeclaration declarations src bindings
  | .ret argument =>
    match argument with
    | none => .ok (src, bindings)
    | some a => processExpr a src bindings >>= fun src1 => .ok (src1, bindings)
  | .funcDecl params body =>
    let innerBindings4 := bindings
    processLValList params src innerBindings4 >>= fun src1 =>
    processStmt body src1 innerBindings4 >>= fun p => .ok (p.1, bindings)
  | .tryStmt blk handler finalizer =>
    processStmt blk src bindings >>= fun p1 =>
    (match handler with
      | none => .ok p1
      | some (.mk param hbody) =>
        let innerBindings7 := p1.2
        (match param with
          | none => .ok p1.1
          | some pp => processLVal pp p1.1 innerBindings7) >>= fun src1a =>
        processStmt hbody src1a p1.2) >>= fun p2 =>
    (match finalizer with
      | none => .ok p2
      | some f => processStmt f p2.1 p2.2)
  | .forOf left right _ =>
    processExpr right src bindings >>= fun src1 =>
    (match left with
      | .fdecl _ declarations => processVariableDeclaration declarations src1 bindings
      | .flval l => processLVal l src1 bindings >>= fun src2 => .ok (src2, bindings))
  | .classDecl => .error (.notImplemented "ClassDeclaration")
  | .importDecl _ _ => .error .cannotImport

/-- The statement loop of a block body beside `processStmt`, threading the
mutated set through the sequence. -/
def processStmtList (asts : List Stmt) (src : MagicString) (bindings : StrSet) :
    Except Err (MagicString × StrSet) :=
  match asts with
  | [] => .ok (src, bindings)
  | a :: rest =>
    processStmt a src bindings >>= fun p => processStmtList rest p.1 p.2

/-- `processExpr`: rewrite one expression.  The set is read-only here
(`ReadonlySet<string>` in the source), so only the buffer is returned. -/
def processExpr (ast : Expr) (src : MagicString) (bindings : StrSet) :
    Except Err MagicString :=
  match ast with
  | .ident name s e =>
    .ok (if bindings.contains name then src.update s e (getLocalsName name) else src)
  | .call callee args _ _ =>
    match callee with
    | .intrinsic n => .error (.notImplemented n)
    | .expr c =>
      processExpr c src bindings >>= fun src1 => processExprList args src1 bindings
  | .member obj prop _ _ =>
    processExpr obj src bindings >>= fun src1 => processExpr prop src1 bindings
  | .arrow params body _ _ =>
    let innerBindings3 := bindings
    processLValList params src innerBindings3 >>= fun src1 =>
    (match body with
      | .stmt b => processStmt b src1 innerBindings3 >>= fun p => .ok p.1
      | .expr ex => processExpr ex src1 innerBindings3)
  | .functionExpr _ body _ _ =>
    let innerBindings := bindings
    processStmt body src innerBindings >>= fun p => .ok p.1
  | .classExpr _ _ => .ok src
  | .binary _ left right _ _ =>
    processExpr left src bindings >>= fun src1 => processExpr right src1 bindings
  | .numLit _ _ _ => .ok src

/-- The argument loop of a call expression beside `processExpr` (arguments
are modelled as plain expressions, where `processArgument` reduces to
`processExpr`). -/
def processExprList (asts : List Expr) (src : MagicString) (bindings : StrSet) :
    Except Err MagicString :=
  match asts with
  | [] => .ok src
  | a :: rest =>
    processExpr a src bindings >>= fun src1 => processExprList rest src1 bindings

/-- `processLVal`: rewrite a left-value; an identifier in the snapshot is
rewritten in place, and the set is never mutated. -/
def processLVal (ast : LVal) (src : MagicString) (bindings : StrSet) :
    Except Err MagicString :=
  match ast with
  | .lident name s e =>
    .ok (if bindings.contains name then src.update s e (getLocalsName name) else src)
  | .lmember obj prop _ _ =>
    processExpr obj src bindings >>= fun src1 => processExpr prop src1 bindings
  | .restElem argument _ _ => processLVal argument src bindings
  | .assignPat left right _ _ =>
    processLVal left src bindings >>= fun src1 => processExpr right src1 bindings
  | .arrayPat elements _ _ => processOptLValList elements src bindings

/-- The parameter loop of function-like nodes beside `processLVal`. -/
def processLValList (asts : List LVal) (src : MagicString) (bindings : StrSet) :
    Except Err MagicString :=
  match asts with
  | [] => .ok src
  | a :: rest =>
    processLVal a src bindings >>= fun src1 => processLValList rest src1 bindings

/-- The element loop of an array pattern beside `processLVal` (holes are
skipped). -/
def processOptLValList (asts : List (Option LVal)) (src : MagicString) (bindings : StrSet) :
    Except Err MagicString :=
  match asts with
  | [] => .ok src
  | none :: rest => processOptLValList rest src bindings
  | some a :: rest =>
    processLVal a src bindings >>= fun src1 => processOptLValList rest src1 bindings

/-- `processDeclarationId`: delete the newly declared names from the active
set (a declared identifier is never rewritten); default-value expressions are
processed after the left side has been deleted. -/
def processDeclarationId (ast : LVal) (src : MagicString) (bindings : StrSet) :
    Except Err (MagicString × StrSet) :=
  match ast with
  | .lident name _ _ => .ok (src, setDelete bindings name)
  | .lmember _ _ _ _ => .error (.unsupportedDeclarationType "MemberExpression")
  | .restElem argument _ _ =>
    match argument with
    | .lident name _ _ => .ok (src, setDelete bindings name)
    | _ => .error .restElementNotIdentifierInDecl
  | .assignPat left right _ _ =>
    processDeclarationId left src bindings >>= fun p =>
    processExpr right p.1 p.2 >>= fun src2 => .ok (src2, p.2)
  | .arrayPat elements _ _ => processDeclIdOptList elements src bindings

/-- The element loop of an array pattern beside `processDeclarationId`. -/
def processDeclIdOptList (asts : List (Option LVal)) (src : MagicString) (bindings : StrSet) :
    Except Err (MagicString × StrSet) :=
  match asts with
  | [] => .ok (src, bindings)
  | none :: rest => processDeclIdOptList rest src bindings
  | some a :: rest =>
    processDeclarationId a src bindings >>= fun p => processDeclIdOptList rest p.1 p.2

/-- `processVariableDeclaration`: for each declarator, process the
initializer with the pre-declaration set, then delete the declared names. -/
def processVariableDeclaration (declarations : List VarDeclarator) (src : MagicString)
    (bindings : StrSet) : Except Err (MagicString × StrSet) :=
  match declarations with
  | [] => .ok (src, bindings)
  | .mk id init :: rest =>
    (match init with
      | none => .ok src
      | some i => processExpr i src bindings) >>= fun src1 =>
    processDeclarationId id src1 bindings >>= fun p =>
    processVariableDeclaration rest p.1 p.2

end

/-- The output of `compile`: the two derived patch buffers. -/
structure CompileOutput : Type where
  locals : MagicString
  main : MagicString

/-- `compile`: parse, extract bindings, synthesize the locals export, rewrite
the entry call with the binding-name set, and wrap the main module. -/
def compile (statements : List Stmt) (src : String) : Except Err CompileOutput :=
  parse statements src >>= fun parseResult =>
  getBindings parseResult.localsAst parseResult.localsSrc >>= fun bindings =>
  let localsOut := appendExport parseResult.localsSrc bindings
  processExpr parseResult.mainAst parseResult.mainSrc
      ((bindings.map (fun b => b.name)).eraseDups) >>= fun mainSrc1 =>
  wrapMain parseResult.mainAst mainSrc1 >>= fun mainOut =>
  .ok { locals := localsOut, main := mainOut }

/-! ### Concrete inputs used by the claim theorems

Each `ex*Stmts` value is the parsed statement list of the source text next to
it, with the original byte offsets of the relevant nodes. -/

/-- Source text of the shadowing example (spec testable property 4). -/
def exShadowSrc : String := "let x = 1; app(() => \x7b let x = 2; return x; \x7d);"

/-- Parsed statements of `exShadowSrc`. -/
def exShadowStmts : List Stmt :=
  [ .varDecl .klet [.mk (.lident "x" 4 5) (some (.numLit 1 8 9))]
  , .exprStmt (.call (.expr (.ident "app" 11 14))
      [ .arrow [] (.stmt (.block
          [ .varDecl .klet [.mk (.lident "x" 27 28) (some (.numLit 2 31 32))]
          , .ret (some (.ident "x" 41 42)) ])) 15 45 ] 11 46) ]

/-- Source text of the initializer-before-shadow example (spec testable
property 5). -/
def exInitSrc : String := "let x = 1; app(() => \x7b let x = x + 1; \x7d);"

/-- Parsed statements of `exInitSrc`. -/
def exInitStmts : List Stmt :=
  [ .varDecl .klet [.mk (.lident "x" 4 5) (some (.numLit 1 8 9))]
  , .exprStmt (.call (.expr (.ident "app" 11 14))
      [ .arrow [] (.stmt (.block
          [ .varDecl .klet [.mk (.lident "x" 27 28)
              (some (.binary "+" (.ident "x" 31 32) (.numLit 1 35 36) 31 36))] ])) 15 39 ]
        11 40) ]

/-- Source text of the parameter-shadowing example. -/
def exParamSrc : String := "let x = 1; app((x) => \x7b return x; \x7d);"

/-- Parsed statements of `exParamSrc`: the arrow parameter `x` shares the
top-level binding's name. -/
def exParamStmts : List Stmt :=
  [ .varDecl .klet [.mk (.lident "x" 4 5) (some (.numLit 1 8 9))]
  , .exprStmt (.call (.expr (.ident "app" 11 14))
      [ .arrow [.lident "x" 16 17] (.stmt (.block
          [ .ret (some (.ident "x" 31 32)) ])) 15 35 ] 11 36) ]

/-- Source text of the catch-parameter example. -/
def exCatchSrc : String := "let x = 1; app(() => \x7b try \x7b\x7d catch (x) \x7b x; \x7d \x7d);"

/-- Parsed statements of `exCatchSrc`: the catch parameter `x` shares the
top-level binding's name and the handler body references it. -/
def exCatchStmts : List Stmt :=
  [ .varDecl .klet [.mk (.lident "x" 4 5) (some (.numLit 1 8 9))]
  , .exprStmt (.call (.expr (.ident "app" 11 14))
      [ .arrow [] (.stmt (.block
          [ .tryStmt (.block [])
              (some (.mk (some (.lident "x" 37 38))
                (.block [.exprStmt (.ident "x" 42 43)])))
              none ])) 15 48 ] 11 49) ]

/-- Source text of the for...of example. -/
def exForOfSrc : String := "let x = 1; app(() => \x7b for (const x of 0) \x7b\x7d x; \x7d);"

/-- Parsed statements of `exForOfSrc`: the loop variable `x` shares the
top-level binding's name and `x` is referenced again after the loop. -/
def exForOfStmts : List Stmt :=
  [ .varDecl .klet [.mk (.lident "x" 4 5) (some (.numLit 1 8 9))]
  , .exprStmt (.call (.expr (.ident "app" 11 14))
      [ .arrow [] (.stmt (.block
          [ .forOf (.fdecl .kconst [.mk (.lident "x" 34 35) none])
              (.numLit 0 39 40) (.block [])
          , .exprStmt (.ident "x" 45 46) ])) 15 49 ] 11 50) ]

/-- Source text of the class-declaration example. -/
def exClassDeclSrc : String := "app(() => \x7b class C \x7b\x7d \x7d);"

/-- Parsed statements of `exClassDeclSrc`: the entry argument contains a class
declaration. -/
def exClassDeclStmts : List Stmt :=
  [ .exprStmt (.call (.expr (.ident "app" 0 3))
      [ .arrow [] (.stmt (.block [.classDecl])) 4 24 ] 0 25) ]

/-- Source text of the class-expression example. -/
def exClassExprSrc : String := "app(() => \x7b let y = class \x7b\x7d; \x7d);"

/-- Parsed statements of `exClassExprSrc`: the entry argument contains a class
expression. -/
def exClassExprStmts : List Stmt :=
  [ .exprStmt (.call (.expr (.ident "app" 0 3))
      [ .arrow [] (.stmt (.block
          [ .varDecl .klet [.mk (.lident "y" 16 17) (some (.classExpr 20 28))] ])) 4 31 ]
        0 32) ]

/-- Parsed statements of the zero-argument entry call `app();`. -/
def exZeroArgStmts : List Stmt :=
  [ .exprStmt (.call (.expr (.ident "app" 0 3)) [] 0 5) ]

set_option maxHeartbeats 3200000

/-! ### Generic helper lemmas -/

/-- Sequencing after a successful `Except` computation. -/
theorem exceptOk_bind {α β : Type} (a : α) (f : α → Except Err β) :
    (Except.ok a >>= f) = f a := rfl

/-- Sequencing after a failed `Except` computation propagates the error. -/
theorem exceptError_bind {α β : Type} (E : Err) (f : α → Except Err β) :
    ((Except.error E : Except Err α) >>= f) = Except.error E := rfl

/-- `pure` in the `Except` monad is `Except.ok`. -/
theorem exceptPure {α : Type} (a : α) : (pure a : Except Err α) = Except.ok a := rfl

/-- A bind avoids a given error value when both stages do. -/
theorem exceptBind_ne_error {α β : Type} {x : Except Err α} {f : α → Except Err β} {E : Err}
    (hx : x ≠ .error E) (hf : ∀ a, f a ≠ .error E) : (x >>= f) ≠ .error E := by
  cases x with
  | error E2 =>
    rw [exceptError_bind]
    intro h
    injection h with hE
    exact hx (by rw [hE])
  | ok a => rw [exceptOk_bind]; exact hf a

/-- Mapping over an `Except` value avoids a given error value when the value
does. -/
theorem exceptMap_ne_error {α β : Type} {g : α → β} {x : Except Err α} {E : Err}
    (hx : x ≠ .error E) : (g <$> x) ≠ .error E := by
  cases x with
  | error E2 =>
    intro h
    simp only [Except.map_error] at h
    injection h with hE
    exact hx (by rw [hE])
  | ok a => simp

/-- Deleting a name from a snapshot makes membership of that name false. -/
theorem contains_setDelete_self (B : StrSet) (name : String) :
    (setDelete B name).contains name = false := by
  induction B with
  | nil => rfl
  | cons a rest ih =>
    by_cases h : a = name
    · simp only [setDelete, List.filter_cons] at ih ⊢
      simp [h, ih]
    · simp only [setDelete, List.filter_cons] at ih ⊢
      simp [h, ih, Ne.symm h]

/-! ### Claim theorems -/

/-- C1: inside the entry call's first argument a bare identifier expression is
rewritten in place to the parenthesized locals access `(__locals__.name)` iff
the name is in the active scope snapshot (first conjunct); a nested variable
declaration deletes the name from the cloned snapshot, so a reference after
the shadowing declaration in that scope is left unmodified while a reference
before it is rewritten (second conjunct); end to end, the spec example
`let x = 1; app(() => { let x = 2; return x; })` leaves the shadowed inner
`x` references unmodified (third conjunct: the only main edits are the ones
seeded by the locator and the main-module wrapper). -/
theorem c1_ident_rewrite_iff_in_snapshot :
    (∀ (name : String) (s e : Nat) (src : MagicString) (B : StrSet),
      processExpr (.ident name s e) src B =
        .ok (if B.contains name then src.update s e (getLocalsName name) else src))
    ∧ (∀ (name : String) (s1 e1 sd ed vi si ei s2 e2 : Nat) (src : MagicString) (B : StrSet),
      processStmt (.block
          [ .exprStmt (.ident name s1 e1)
          , .varDecl .klet [.mk (.lident name sd ed) (some (.numLit vi si ei))]
          , .exprStmt (.ident name s2 e2) ]) src B =
        .ok ((if B.contains name then src.update s1 e1 (getLocalsName name) else src), B))
    ∧ compile exShadowStmts exShadowSrc =
      .ok { locals := { original := exShadowSrc
                        edits := [.remove 11 46,
                          .append ("export default Object.seal(\x7bget x() \x7b return x \x7d,set x(v) \x7b x = v \x7d,\x7d)")] }
            main := { original := exShadowSrc
                      edits := [.remove 0 11, .remove 46 exShadowSrc.length,
                        .update 11 15 "export default (__locals__) =>", .remove 45 46] } } := by
  refine ⟨fun name s e src B => rfl, ?_, by rfl⟩
  intro name s1 e1 sd ed vi si ei s2 e2 src B
  show Except.ok
      ((if (setDelete B name).contains name then
          (if B.contains name then src.update s1 e1 (getLocalsName name) else src).update
            s2 e2 (getLocalsName name)
        else if B.contains name then src.update s1 e1 (getLocalsName name) else src), B) = _
  rw [contains_setDelete_self]
  rfl

/-- C3: a variable-declaration initializer is rewritten with the snapshot as
it was before the declaration (so in `let x = <x>` the right-hand `x` is
rewritten exactly when `x` is in the snapshot), the declared name is deleted
from the active snapshot only after the initializer is processed (first
conjunct), and a declared identifier is itself never rewritten — processing a
declaration target records no edit (second conjunct); end to end, the spec
example `let x = 1; app(() => { let x = x + 1; })` rewrites only the
right-hand `x` of the initializer (third conjunct). -/
theorem c3_initializer_uses_pre_declaration_snapshot :
    (∀ (name : String) (s1 e1 s2 e2 : Nat) (src : MagicString) (B : StrSet),
      processVariableDeclaration [.mk (.lident name s1 e1) (some (.ident name s2 e2))] src B =
        .ok ((if B.contains name then src.update s2 e2 (getLocalsName name) else src),
          setDelete B name))
    ∧ (∀ (name : String) (s e : Nat) (src : MagicString) (B : StrSet),
      processDeclarationId (.lident name s e) src B = .ok (src, setDelete B name))
    ∧ compile exInitStmts exInitSrc =
      .ok { locals := { original := exInitSrc
                        edits := [.remove 11 40,
                          .append ("export default Object.seal(\x7bget x() \x7b return x \x7d,set x(v) \x7b x = v \x7d,\x7d)")] }
            main := { original := exInitSrc
                      edits := [.remove 0 11, .remove 40 exInitSrc.length,
                        .update 31 32 "(__locals__.x)",
                        .update 11 15 "export default (__locals__) =>", .remove 39 40] } } := by
  exact ⟨fun name s1 e1 s2 e2 src B => rfl, fun name s e src B => rfl, by rfl⟩

/-- C2: divergence evidence for the parameter-shadowing claim.  The claim says
function/arrow parameter names are removed from the cloned snapshot before the
body is processed, leaving the parameter and same-named body references
unmodified.  The code instead runs `processLVal` on each parameter, which
rewrites a matching parameter identifier in place and deletes nothing, so for
`let x = 1; app((x) => { return x; })` the parameter `x` (offsets 16-17) and
the body reference `x` (offsets 31-32) are both rewritten to
`(__locals__.x)`. -/
theorem c2_param_rewritten_not_shadowed :
    compile exParamStmts exParamSrc =
      .ok { locals := { original := exParamSrc
                        edits := [.remove 11 36,
                          .append ("export default Object.seal(\x7bget x() \x7b return x \x7d,set x(v) \x7b x = v \x7d,\x7d)")] }
            main := { original := exParamSrc
                      edits := [.remove 0 11, .remove 36 exParamSrc.length,
                        .update 16 17 "(__locals__.x)", .update 31 32 "(__locals__.x)",
                        .update 11 15 "export default (__locals__) =>", .remove 35 36] } }
    ∧ Edit.update 16 17 "(__locals__.x)" ∈
        [Edit.remove 0 11, .remove 36 exParamSrc.length,
          .update 16 17 "(__locals__.x)", .update 31 32 "(__locals__.x)",
          .update 11 15 "export default (__locals__) =>", .remove 35 36]
    ∧ Edit.update 31 32 "(__locals__.x)" ∈
        [Edit.remove 0 11, .remove 36 exParamSrc.length,
          .update 16 17 "(__locals__.x)", .update 31 32 "(__locals__.x)",
          .update 11 15 "export default (__locals__) =>", .remove 35 36] := by
  exact ⟨by rfl, by simp, by simp⟩

/-- C4 counterexample: for `let x = 1; app(() => { try {} catch (x) { x; } })`
the handler-body reference `x` (offsets 42-43) IS rewritten to
`(__locals__.x)` although the catch parameter shares the top-level binding's
name, contradicting the claim that the catch parameter shadows it inside the
handler body.  (The catch parameter itself, offsets 37-38, is rewritten as
well.) -/
theorem c4_catch_param_does_not_shadow_counterexample :
    compile exCatchStmts exCatchSrc =
      .ok { locals := { original := exCatchSrc
                        edits := [.remove 11 49,
                          .append ("export default Object.seal(\x7bget x() \x7b return x \x7d,set x(v) \x7b x = v \x7d,\x7d)")] }
            main := { original := exCatchSrc
                      edits := [.remove 0 11, .remove 49 exCatchSrc.length,
                        .update 37 38 "(__locals__.x)", .update 42 43 "(__locals__.x)",
                        .update 11 15 "export default (__locals__) =>", .remove 48 49] } }
    ∧ Edit.update 42 43 "(__locals__.x)" ∈
        [Edit.remove 0 11, .remove 49 exCatchSrc.length,
          .update 37 38 "(__locals__.x)", .update 42 43 "(__locals__.x)",
          .update 11 15 "export default (__locals__) =>", .remove 48 49] := by
  exact ⟨by rfl, by simp⟩

/-- C4 (amended): the catch handler body is processed with the pre-catch
snapshot, not with a clone shrunk by the parameter names: for a try statement
`try {} catch (name) { name; }` the handler-body reference is rewritten
exactly when the name is in the enclosing snapshot, and the catch parameter
itself is processed as an ordinary left-value against a clone (so a matching
parameter is itself rewritten, and nothing is deleted); the enclosing
snapshot is returned unchanged. -/
theorem c4_catch_body_uses_pre_catch_snapshot :
    ∀ (name : String) (ps pe bs be : Nat) (src : MagicString) (B : StrSet),
      processStmt (.tryStmt (.block [])
          (some (.mk (some (.lident name ps pe))
            (.block [.exprStmt (.ident name bs be)]))) none) src B =
        .ok ((if B.contains name then
            (src.update ps pe (getLocalsName name)).update bs be (getLocalsName name)
          else src), B) := by
  intro name ps pe bs be src B
  show Except.ok
      ((if B.contains name then
          (if B.contains name then src.update ps pe (getLocalsName name) else src).update
            bs be (getLocalsName name)
        else if B.contains name then src.update ps pe (getLocalsName name) else src), B) = _
  cases hB : B.contains name <;> rfl

/-- C5 counterexample: processing a for...of statement does NOT leave the
enclosing scope snapshot unchanged — for `for (const x of 0) {}` with the
enclosing snapshot `["x"]` the returned snapshot is `[]` (the header name is
deleted from the enclosing snapshot itself), and end to end, in
`let x = 1; app(() => { for (const x of 0) {} x; })` the reference `x`
(offsets 45-46) AFTER the loop is not rewritten: no locals-access edit is
recorded for it. -/
theorem c5_forof_mutates_enclosing_snapshot_counterexample :
    processStmt (.forOf (.fdecl .kconst [.mk (.lident "x" 34 35) none])
        (.numLit 0 39 40) (.block [])) { original := "t", edits := [] } ["x"] =
      .ok ({ original := "t", edits := [] }, [])
    ∧ compile exForOfStmts exForOfSrc =
      .ok { locals := { original := exForOfSrc
                        edits := [.remove 11 50,
                          .append ("export default Object.seal(\x7bget x() \x7b return x \x7d,set x(v) \x7b x = v \x7d,\x7d)")] }
            main := { original := exForOfSrc
                      edits := [.remove 0 11, .remove 50 exForOfSrc.length,
                        .update 11 15 "export default (__locals__) =>", .remove 49 50] } }
    ∧ Edit.update 45 46 "(__locals__.x)" ∉
        [Edit.remove 0 11, .remove 50 exForOfSrc.length,
          .update 11 15 "export default (__locals__) =>", .remove 49 50] := by
  exact ⟨by rfl, by rfl, by simp⟩

/-- C5 (amended): processing a for...of statement deletes the header-bound
names from the enclosing snapshot itself (no cloned child snapshot), after
processing the right-hand side with the enclosing snapshot; the body is not
descended into.  Consequently a reference to the same name in a statement
after the loop, in the enclosing scope, is no longer rewritten. -/
theorem c5_forof_deletes_from_enclosing_snapshot :
    (∀ (kind : VarKind) (name : String) (s1 e1 v s2 e2 : Nat) (body : Stmt)
        (src : MagicString) (B : StrSet),
      processStmt (.forOf (.fdecl kind [.mk (.lident name s1 e1) none])
          (.numLit v s2 e2) body) src B = .ok (src, setDelete B name))
    ∧ (∀ (name : String) (s1 e1 v s2 e2 s3 e3 : Nat) (body : Stmt)
        (src : MagicString) (B : StrSet),
      processStmt (.block
          [ .forOf (.fdecl .kconst [.mk (.lident name s1 e1) none])
              (.numLit v s2 e2) body
          , .exprStmt (.ident name s3 e3) ]) src B = .ok (src, B)) := by
  refine ⟨fun kind name s1 e1 v s2 e2 body src B => rfl, ?_⟩
  intro name s1 e1 v s2 e2 s3 e3 body src B
  show Except.ok
      ((if (setDelete B name).contains name then
          src.update s3 e3 (getLocalsName name)
        else src), B) = _
  rw [contains_setDelete_self]
  rfl

/-- C6: the binding extractor classifies mutability by declaration kind and
preserves declaration order.  Concretely for the statements
`const a = 1; let b = 2; import {c} from "m";` it yields exactly a
(readonly), b (mutable), c (readonly)
in that order (first conjunct); in general a single identifier declaration of
any kind yields one binding that is readonly exactly when the kind is
`const` (second conjunct); a value import yields one readonly binding per
local name other than `app` while a type-only import yields nothing (third
conjunct); and duplicate names are kept in declaration order (fourth
conjunct). -/
theorem c6_binding_classification_and_order :
    getBindings
        [ .varDecl .kconst [.mk (.lident "a" 6 7) (some (.numLit 1 10 11))]
        , .varDecl .klet [.mk (.lident "b" 17 18) (some (.numLit 2 21 22))]
        , .importDecl .valueImport ["c"] ]
        { original := "const a = 1; let b = 2; import \x7bc\x7d from \"m\";", edits := [] } =
      .ok [ { name := "a", readonly := true }
          , { name := "b", readonly := false }
          , { name := "c", readonly := true } ]
    ∧ (∀ (kind : VarKind) (name : String) (s e : Nat) (init : Option Expr) (ms : MagicString),
      getBindings [.varDecl kind [.mk (.lident name s e) init]] ms =
        .ok [{ name := name, readonly := kind == .kconst }])
    ∧ (∀ (k : ImportKind) (specifiers : List String) (ms : MagicString),
      getBindings [.importDecl k specifiers] ms =
        .ok (if k == .typeOnly then []
          else (specifiers.filter (fun n => n != "app")).map
            (fun n => { name := n, readonly := true })))
    ∧ (∀ (ms : MagicString),
      getBindings
          [ .varDecl .klet [.mk (.lident "a" 0 1) none]
          , .varDecl .kconst [.mk (.lident "a" 2 3) none] ] ms =
        .ok [ { name := "a", readonly := false }, { name := "a", readonly := true } ]) := by
  refine ⟨by rfl, fun kind name s e init ms => rfl, ?_, fun ms => rfl⟩
  intro k specifiers ms
  show Except.ok
      ((if k == .typeOnly then []
        else (specifiers.filter (fun n => n != "app")).map
          (fun n => ({ name := n, readonly := true } : Binding))) ++ []) = _
  rw [List.append_nil]

/-- C7 counterexample: the entry-call identifier is NOT excluded from the
binding list when declared by a variable-like declaration — for the top-level
statement `const app = 1;` the extractor returns a binding literally named
`app`, contradicting the claim that no extracted binding is named `app`
regardless of declaration form. -/
theorem c7_variable_declared_app_is_extracted :
    getBindings [.varDecl .kconst [.mk (.lident "app" 6 9) (some (.numLit 1 12 13))]]
        { original := "const app = 1;", edits := [] } =
      .ok [{ name := "app", readonly := true }]
    ∧ (Binding.mk "app" true).name = "app" := by
  exact ⟨by rfl, rfl⟩

/-- C7 (amended): only the import path excludes the entry-call identifier: a
value import contributes one readonly binding per local name except a local
name literally equal to `app` (first conjunct), and every binding an import
declaration contributes has a name other than `app` (second conjunct); a
variable-like declaration of the name `app`, by contrast, does contribute a
binding named `app` (third conjunct). -/
theorem c7_import_app_excluded_but_not_var_decl :
    (∀ (k : ImportKind) (specifiers : List String) (ms : MagicString),
      getBindings [.importDecl k specifiers] ms =
        .ok (if k == .typeOnly then []
          else (specifiers.filter (fun n => n != "app")).map
            (fun n => { name := n, readonly := true })))
    ∧ (∀ (specifiers : List String),
      ((specifiers.filter (fun n => n != "app")).map
        (fun n => ({ name := n, readonly := true } : Binding))).all
          (fun b => b.name != "app") = true)
    ∧ (∀ (s e : Nat) (init : Option Expr) (ms : MagicString),
      getBindings [.varDecl .kconst [.mk (.lident "app" s e) init]] ms =
        .ok [{ name := "app", readonly := true }]) := by
  refine ⟨?_, ?_, fun s e init ms => rfl⟩
  · intro k specifiers ms
    show Except.ok
        ((if k == .typeOnly then []
          else (specifiers.filter (fun n => n != "app")).map
            (fun n => ({ name := n, readonly := true } : Binding))) ++ []) = _
    rw [List.append_nil]
  · intro specifiers
    induction specifiers with
    | nil => rfl
    | cons a rest ih =>
      by_cases h : a = "app"
      · subst h
        simpa [List.filter_cons] using ih
      · simpa [List.filter_cons, h] using ih

/-- C9 counterexample: an entry-call argument containing a class EXPRESSION
compiles successfully and produces both output modules — for
`app(() => { let y = class {}; })` the pass returns ok, contradicting the
claim that a class expression in the argument fails compilation with
UnsupportedConstruct and produces no output. -/
theorem c9_class_expression_is_accepted :
    compile exClassExprStmts exClassExprSrc =
      .ok { locals := { original := exClassExprSrc
                        edits := [.remove 0 32, .append "export default Object.seal(\x7b\x7d)"] }
            main := { original := exClassExprSrc
                      edits := [.remove 0 0, .remove 32 exClassExprSrc.length,
                        .update 0 4 "export default (__locals__) =>", .remove 31 32] } } := by
  rfl

/-- C9 (amended): a class DECLARATION in the entry-call argument is rejected:
the rewriter fails at it with the UnsupportedConstruct error naming
ClassDeclaration (first conjunct), and end to end
`app(() => { class C {} })` fails with that error, producing no output
(third conjunct); a class EXPRESSION, by contrast, is silently skipped —
processing it succeeds and records no edit (second conjunct). -/
theorem c9_class_declaration_rejected_expression_skipped :
    (∀ (src : MagicString) (B : StrSet),
      processStmt .classDecl src B = .error (.notImplemented "ClassDeclaration"))
    ∧ (∀ (s e : Nat) (src : MagicString) (B : StrSet),
      processExpr (.classExpr s e) src B = .ok src)
    ∧ compile exClassDeclStmts exClassDeclSrc =
        .error (.notImplemented "ClassDeclaration") := by
  exact ⟨fun src B => rfl, fun s e src B => rfl, by rfl⟩

/-- C10: with a zero-argument entry call `app();` the main-module synthesis
dereferences `arguments[0]` unguarded and compilation aborts with the modelled
JS runtime crash, which is none of the pass's named error kinds (first and
third conjuncts); whenever the entry call has at least one argument the crash
branch of `wrapMain` is unreachable — it deterministically succeeds (second
conjunct). -/
theorem c10_zero_arg_entry_crashes_unnamed :
    compile exZeroArgStmts "app();" =
      .error (.nativeCrash "mainAst.arguments[0] is undefined")
    ∧ (∀ (callee : Callee) (a : Expr) (rest : List Expr) (s e : Nat) (ms : MagicString),
      wrapMain (.call callee (a :: rest) s e) ms =
        .ok ((ms.update s a.startPos
          ("export default (" ++ localsName ++ ") =>")).remove a.endPos e))
    ∧ (∀ (w : String),
      Err.nativeCrash w ≠ .noAppCallFound
      ∧ (∀ t, Err.nativeCrash w ≠ .notImplemented t)
      ∧ Err.nativeCrash w ≠ .cannotImport
      ∧ Err.nativeCrash w ≠ .cannotExport
      ∧ (∀ t, Err.nativeCrash w ≠ .unsupportedBindingType t)
      ∧ (∀ t, Err.nativeCrash w ≠ .unsupportedDeclarationType t)
      ∧ Err.nativeCrash w ≠ .restElementNotIdentifier
      ∧ Err.nativeCrash w ≠ .restElementNotIdentifierInDecl) := by
  refine ⟨by rfl, fun callee a rest s e ms => rfl, ?_⟩
  intro w
  exact ⟨nofun, fun t => nofun, nofun, nofun, fun t => nofun, fun t => nofun, nofun, nofun⟩

/-! ### Entry-point locator lemmas (claim C8) -/

/-- The scan skips a statement that is not an entry statement. -/
theorem parseLoop_step (src : String) (all : List Stmt) (i : Nat) (st : Stmt) (rest : List Stmt)
    (h : isEntryStmt st = false) :
    parseLoop src all i (st :: rest) = parseLoop src all (i + 1) rest := by
  cases st with
  | exprStmt e =>
    cases e with
    | call callee args s ee =>
      have h2 : isCalleeApp callee = false := h
      simp [parseLoop, h2]
    | ident name s ee => rfl
    | member o p s ee => rfl
    | arrow p b s ee => rfl
    | functionExpr p b s ee => rfl
    | classExpr s ee => rfl
    | binary op l r s ee => rfl
    | numLit v s ee => rfl
  | block body => rfl
  | varDecl k d => rfl
  | ret a => rfl
  | funcDecl p b => rfl
  | tryStmt b h2 f => rfl
  | forOf l r b => rfl
  | classDecl => rfl
  | importDecl k sp => rfl

/-- The scan stops at an entry statement and returns the split result. -/
theorem parseLoop_entry (src : String) (all : List Stmt) (i : Nat) (callee : Callee)
    (args : List Expr) (s e : Nat) (rest : List Stmt) (h : isCalleeApp callee = true) :
    parseLoop src all i (.exprStmt (.call callee args s e) :: rest) =
      .ok { localsAst := all.eraseIdx i
            localsSrc := { original := src, edits := [.remove s e] }
            mainAst := .call callee args s e
            mainSrc := { original := src, edits := [.remove 0 s, .remove e src.length] } } := by
  simp [parseLoop, h]

/-- The only error the scan can produce is the missing-entry-point error. -/
theorem parseLoop_error_shape (src : String) (all : List Stmt) :
    ∀ (rest : List Stmt) (i : Nat) (E : Err),
      parseLoop src all i rest = .error E → E = .noAppCallFound := by
  intro rest
  induction rest with
  | nil =>
    intro i E h
    have h2 : (Except.error Err.noAppCallFound : Except Err ParseResult) = .error E := h
    injection h2 with h3
    exact h3.symm
  | cons st rest ih =>
    intro i E h
    cases hE : isEntryStmt st with
    | false =>
      rw [parseLoop_step src all i st rest hE] at h
      exact ih (i + 1) E h
    | true =>
      cases st with
      | exprStmt e2 =>
        cases e2 with
        | call callee args s ee =>
          have h2 : isCalleeApp callee = true := hE
          rw [parseLoop_entry src all i callee args s ee rest h2] at h
          exact Except.noConfusion h
        | ident name s ee => exact Bool.noConfusion hE
        | member o p s ee => exact Bool.noConfusion hE
        | arrow p b s ee => exact Bool.noConfusion hE
        | functionExpr p b s ee => exact Bool.noConfusion hE
        | classExpr s ee => exact Bool.noConfusion hE
        | binary op l r s ee => exact Bool.noConfusion hE
        | numLit v s ee => exact Bool.noConfusion hE
      | block body => exact Bool.noConfusion hE
      | varDecl k d => exact Bool.noConfusion hE
      | ret a => exact Bool.noConfusion hE
      | funcDecl p b => exact Bool.noConfusion hE
      | tryStmt b h2 f => exact Bool.noConfusion hE
      | forOf l r b => exact Bool.noConfusion hE
      | classDecl => exact Bool.noConfusion hE
      | importDecl k sp => exact Bool.noConfusion hE

/-- The scan fails with the missing-entry-point error iff no remaining
statement is an entry statement. -/
theorem parseLoop_error_iff (src : String) (all : List Stmt) :
    ∀ (rest : List Stmt) (i : Nat),
      (parseLoop src all i rest = .error .noAppCallFound ↔
        ∀ st ∈ rest, isEntryStmt st = false) := by
  intro rest
  induction rest with
  | nil =>
    intro i
    constructor
    · intro h st hst
      exact absurd hst (List.not_mem_nil st)
    · intro h
      rfl
  | cons st rest ih =>
    intro i
    cases hE : isEntryStmt st with
    | false =>
      rw [parseLoop_step src all i st rest hE]
      constructor
      · intro h st2 hst2
        rcases List.mem_cons.mp hst2 with h3 | h3
        · rw [h3]; exact hE
        · exact ((ih (i + 1)).mp h) st2 h3
      · intro h
        exact (ih (i + 1)).mpr (fun st2 hst2 => h st2 (List.mem_cons_of_mem st hst2))
    | true =>
      constructor
      · intro h
        cases st with
        | exprStmt e2 =>
          cases e2 with
          | call callee args s ee =>
            have h2 : isCalleeApp callee = true := hE
            rw [parseLoop_entry src all i callee args s ee rest h2] at h
            exact Except.noConfusion h
          | ident name s ee => exact Bool.noConfusion hE
          | member o p s ee => exact Bool.noConfusion hE
          | arrow p b s ee => exact Bool.noConfusion hE
          | functionExpr p b s ee => exact Bool.noConfusion hE
          | classExpr s ee => exact Bool.noConfusion hE
          | binary op l r s ee => exact Bool.noConfusion hE
          | numLit v s ee => exact Bool.noConfusion hE
        | block body => exact Bool.noConfusion hE
        | varDecl k d => exact Bool.noConfusion hE
        | ret a => exact Bool.noConfusion hE
        | funcDecl p b => exact Bool.noConfusion hE
        | tryStmt b h2 f => exact Bool.noConfusion hE
        | forOf l r b => exact Bool.noConfusion hE
        | classDecl => exact Bool.noConfusion hE
        | importDecl k sp => exact Bool.noConfusion hE
      · intro h
        have h2 := h st (List.mem_cons_self st rest)
        rw [hE] at h2
        exact Bool.noConfusion h2

/-- `parse` fails with the missing-entry-point error iff no top-level
statement is an entry statement. -/
theorem parse_error_iff (statements : List Stmt) (src : String) :
    parse statements src = .error .noAppCallFound ↔
      ∀ st ∈ statements, isEntryStmt st = false :=
  parseLoop_error_iff src statements statements 0

/-- Skipping a prefix of non-entry statements only advances the index. -/
theorem parseLoop_skip_prefix (src : String) (all : List Stmt) :
    ∀ (pre : List Stmt), (∀ st ∈ pre, isEntryStmt st = false) →
      ∀ (i : Nat) (rest : List Stmt),
        parseLoop src all i (pre ++ rest) = parseLoop src all (i + pre.length) rest := by
  intro pre
  induction pre with
  | nil =>
    intro h i rest
    rfl
  | cons a pre ih =>
    intro h i rest
    have ha : isEntryStmt a = false := h a (List.mem_cons_self a pre)
    have htl : ∀ st ∈ pre, isEntryStmt st = false :=
      fun st hst => h st (List.mem_cons_of_mem a hst)
    calc parseLoop src all i ((a :: pre) ++ rest)
        = parseLoop src all (i + 1) (pre ++ rest) := parseLoop_step src all i a (pre ++ rest) ha
      _ = parseLoop src all ((i + 1) + pre.length) rest := ih htl (i + 1) rest
      _ = parseLoop src all (i + (a :: pre).length) rest := by
          rw [Nat.add_assoc, Nat.add_comm 1 pre.length]
          rfl

/-- Removing the element at the length of the prefix removes exactly the
spliced-in element. -/
theorem eraseIdx_append_length (pre : List Stmt) (st0 : Stmt) (post : List Stmt) :
    (pre ++ st0 :: post).eraseIdx pre.length = pre ++ post := by
  induction pre with
  | nil => rfl
  | cons a pre ih =>
    show a :: ((pre ++ st0 :: post).eraseIdx pre.length) = a :: (pre ++ post)
    rw [ih]

/-! ### Stages after the locator never produce the missing-entry error -/

/-- `wrapMain` only fails with a modelled native crash. -/
theorem wrapMain_ne (mainAst : Expr) (ms : MagicString) :
    wrapMain mainAst ms ≠ .error .noAppCallFound := by
  cases mainAst with
  | call callee args s e => cases args <;> exact nofun
  | ident name s e => exact nofun
  | member o p s e => exact nofun
  | arrow p b s e => exact nofun
  | functionExpr p b s e => exact nofun
  | classExpr s e => exact nofun
  | binary op l r s e => exact nofun
  | numLit v s e => exact nofun

/-- `getBindingsOfId` only fails with an unsupported-binding error. -/
theorem getBindingsOfId_ne (id : LVal) (ro : Bool) (ms : MagicString) :
    getBindingsOfId id ro ms ≠ .error .noAppCallFound := by
  cases id <;> exact nofun

/-- The declarator loop of the extractor never produces the missing-entry
error. -/
theorem getBindingsOfDecls_ne (ro : Bool) (decls : List VarDeclarator) (ms : MagicString) :
    getBindingsOfDecls ro decls ms ≠ .error .noAppCallFound := by
  induction decls with
  | nil => exact nofun
  | cons d rest ih =>
    cases d with
    | mk id init =>
      exact exceptBind_ne_error (getBindingsOfId_ne id ro ms)
        (fun bs => exceptBind_ne_error ih (fun bs2 => nofun))

/-- `getBindings` never produces the missing-entry error. -/
theorem getBindings_ne (l : List Stmt) (ms : MagicString) :
    getBindings l ms ≠ .error .noAppCallFound := by
  induction l with
  | nil => exact nofun
  | cons st rest ih =>
    cases st with
    | varDecl kind decls =>
      exact exceptBind_ne_error (getBindingsOfDecls_ne (kind == .kconst) decls ms)
        (fun bs => exceptBind_ne_error ih (fun bs2 => nofun))
    | importDecl k specs => exact exceptBind_ne_error ih (fun bs2 => nofun)
    | block body => exact ih
    | exprStmt e => exact ih
    | ret a => exact ih
    | funcDecl p b => exact ih
    | tryStmt b h f => exact ih
    | forOf lf r b => exact ih
    | classDecl => exact ih

mutual

/-- The statement rewriter never produces the missing-entry error. -/
theorem processStmt_ne_entry (ast : Stmt) (src : MagicString) (B : StrSet) :
    processStmt ast src B ≠ .error .noAppCallFound := by
  match ast with
  | .block body =>
    exact exceptBind_ne_error (processStmtList_ne_entry body src B) (fun p => nofun)
  | .exprStmt e =>
    exact exceptBind_ne_error (processExpr_ne_entry e src B) (fun s1 => nofun)
  | .varDecl k declarations => exact processVariableDeclaration_ne_entry declarations src B
  | .ret none => exact nofun
  | .ret (some a) =>
    exact exceptBind_ne_error (processExpr_ne_entry a src B) (fun s1 => nofun)
  | .funcDecl params body =>
    exact exceptBind_ne_error (processLValList_ne_entry params src B)
      (fun src1 => exceptBind_ne_error (processStmt_ne_entry body src1 B) (fun p => nofun))
  | .tryStmt blk none none =>
    exact exceptBind_ne_error (processStmt_ne_entry blk src B) (fun p1 =>
      exceptBind_ne_error nofun (fun p2 => nofun))
  | .tryStmt blk none (some f) =>
    exact exceptBind_ne_error (processStmt_ne_entry blk src B) (fun p1 =>
      exceptBind_ne_error nofun (fun p2 => processStmt_ne_entry f p2.1 p2.2))
  | .tryStmt blk (some (.mk none hbody)) none =>
    exact exceptBind_ne_error (processStmt_ne_entry blk src B) (fun p1 =>
      exceptBind_ne_error
        (exceptBind_ne_error nofun (fun src1a => processStmt_ne_entry hbody src1a p1.2))
        (fun p2 => nofun))
  | .tryStmt blk (some (.mk none hbody)) (some f) =>
    exact exceptBind_ne_error (processStmt_ne_entry blk src B) (fun p1 =>
      exceptBind_ne_error
        (exceptBind_ne_error nofun (fun src1a => processStmt_ne_entry hbody src1a p1.2))
        (fun p2 => processStmt_ne_entry f p2.1 p2.2))
  | .tryStmt blk (some (.mk (some pp) hbody)) none =>
    exact exceptBind_ne_error (processStmt_ne_entry blk src B) (fun p1 =>
      exceptBind_ne_error
        (exceptBind_ne_error (processLVal_ne_entry pp p1.1 p1.2)
          (fun src1a => processStmt_ne_entry hbody src1a p1.2))
        (fun p2 => nofun))
  | .tryStmt blk (some (.mk (some pp) hbody)) (some f) =>
    exact exceptBind_ne_error (processStmt_ne_entry blk src B) (fun p1 =>
      exceptBind_ne_error
        (exceptBind_ne_error (processLVal_ne_entry pp p1.1 p1.2)
          (fun src1a => processStmt_ne_entry hbody src1a p1.2))
        (fun p2 => processStmt_ne_entry f p2.1 p2.2))
  | .forOf (.fdecl k declarations) right body =>
    exact exceptBind_ne_error (processExpr_ne_entry right src B)
      (fun src1 => processVariableDeclaration_ne_entry declarations src1 B)
  | .forOf (.flval l) right body =>
    exact exceptBind_ne_error (processExpr_ne_entry right src B)
      (fun src1 => exceptBind_ne_error (processLVal_ne_entry l src1 B) (fun s2 => nofun))
  | .classDecl => exact nofun
  | .importDecl k sp => exact nofun

/-- The statement loop never produces the missing-entry error. -/
theorem processStmtList_ne_entry (asts : List Stmt) (src : MagicString) (B : StrSet) :
    processStmtList asts src B ≠ .error .noAppCallFound := by
  match asts with
  | [] => exact nofun
  | a :: rest =>
    exact exceptBind_ne_error (processStmt_ne_entry a src B)
      (fun p => processStmtList_ne_entry rest p.1 p.2)

/-- The expression rewriter never produces the missing-entry error. -/
theorem processExpr_ne_entry (ast : Expr) (src : MagicString) (B : StrSet) :
    processExpr ast src B ≠ .error .noAppCallFound := by
  match ast with
  | .ident name s e => exact nofun
  | .call (.intrinsic n) args s e => exact nofun
  | .call (.expr c) args s e =>
    exact exceptBind_ne_error (processExpr_ne_entry c src B)
      (fun src1 => processExprList_ne_entry args src1 B)
  | .member obj prop s e =>
    exact exceptBind_ne_error (processExpr_ne_entry obj src B)
      (fun src1 => processExpr_ne_entry prop src1 B)
  | .arrow params (.stmt b) s e =>
    exact exceptBind_ne_error (processLValList_ne_entry params src B)
      (fun src1 => exceptBind_ne_error (processStmt_ne_entry b src1 B) (fun p => nofun))
  | .arrow params (.expr ex) s e =>
    exact exceptBind_ne_error (processLValList_ne_entry params src B)
      (fun src1 => processExpr_ne_entry ex src1 B)
  | .functionExpr params body s e =>
    exact exceptBind_ne_error (processStmt_ne_entry body src B) (fun p => nofun)
  | .classExpr s e => exact nofun
  | .binary op l r s e =>
    exact exceptBind_ne_error (processExpr_ne_entry l src B)
      (fun src1 => processExpr_ne_entry r src1 B)
  | .numLit v s e => exact nofun

/-- The argument loop never produces the missing-entry error. -/
theorem processExprList_ne_entry (asts : List Expr) (src : MagicString) (B : StrSet) :
    processExprList asts src B ≠ .error .noAppCallFound := by
  match asts with
  | [] => exact nofun
  | a :: rest =>
    exact exceptBind_ne_error (processExpr_ne_entry a src B)
      (fun src1 => processExprList_ne_entry rest src1 B)

/-- The left-value rewriter never produces the missing-entry error. -/
theorem processLVal_ne_entry (ast : LVal) (src : MagicString) (B : StrSet) :
    processLVal ast src B ≠ .error .noAppCallFound := by
  match ast with
  | .lident name s e => exact nofun
  | .lmember obj prop s e =>
    exact exceptBind_ne_error (processExpr_ne_entry obj src B)
      (fun src1 => processExpr_ne_entry prop src1 B)
  | .restElem argument s e => exact processLVal_ne_entry argument src B
  | .assignPat left right s e =>
    exact exceptBind_ne_error (processLVal_ne_entry left src B)
      (fun src1 => processExpr_ne_entry right src1 B)
  | .arrayPat elements s e => exact processOptLValList_ne_entry elements src B

/-- The parameter loop never produces the missing-entry error. -/
theorem processLValList_ne_entry (asts : List LVal) (src : MagicString) (B : StrSet) :
    processLValList asts src B ≠ .error .noAppCallFound := by
  match asts with
  | [] => exact nofun
  | a :: rest =>
    exact exceptBind_ne_error (processLVal_ne_entry a src B)
      (fun src1 => processLValList_ne_entry rest src1 B)

/-- The array-pattern element loop never produces the missing-entry error. -/
theorem processOptLValList_ne_entry (asts : List (Option LVal)) (src : MagicString) (B : StrSet) :
    processOptLValList asts src B ≠ .error .noAppCallFound := by
  match asts with
  | [] => exact nofun
  | none :: rest => exact processOptLValList_ne_entry rest src B
  | some a :: rest =>
    exact exceptBind_ne_error (processLVal_ne_entry a src B)
      (fun src1 => processOptLValList_ne_entry rest src1 B)

/-- The declaration-target walker never produces the missing-entry error. -/
theorem processDeclarationId_ne_entry (ast : LVal) (src : MagicString) (B : StrSet) :
    processDeclarationId ast src B ≠ .error .noAppCallFound := by
  match ast with
  | .lident name s e => exact nofun
  | .lmember obj prop s e => exact nofun
  | .restElem (.lident name s2 e2) s e => exact nofun
  | .restElem (.lmember o p s2 e2) s e => exact nofun
  | .restElem (.restElem a2 s2 e2) s e => exact nofun
  | .restElem (.assignPat l2 r2 s2 e2) s e => exact nofun
  | .restElem (.arrayPat el2 s2 e2) s e => exact nofun
  | .assignPat left right s e =>
    exact exceptBind_ne_error (processDeclarationId_ne_entry left src B)
      (fun p => exceptBind_ne_error (processExpr_ne_entry right p.1 p.2) (fun s2 => nofun))
  | .arrayPat elements s e => exact processDeclIdOptList_ne_entry elements src B

/-- The array-pattern element loop of the declaration walker never produces
the missing-entry error. -/
theorem processDeclIdOptList_ne_entry (asts : List (Option LVal)) (src : MagicString)
    (B : StrSet) : processDeclIdOptList asts src B ≠ .error .noAppCallFound := by
  match asts with
  | [] => exact nofun
  | none :: rest => exact processDeclIdOptList_ne_entry rest src B
  | some a :: rest =>
    exact exceptBind_ne_error (processDeclarationId_ne_entry a src B)
      (fun p => processDeclIdOptList_ne_entry rest p.1 p.2)

/-- The declarator loop never produces the missing-entry error. -/
theorem processVariableDeclaration_ne_entry (declarations : List VarDeclarator)
    (src : MagicString) (B : StrSet) :
    processVariableDeclaration declarations src B ≠ .error .noAppCallFound := by
  match declarations with
  | [] => exact nofun
  | .mk id none :: rest =>
    exact exceptBind_ne_error nofun (fun src1 =>
      exceptBind_ne_error (processDeclarationId_ne_entry id src1 B)
        (fun p => processVariableDeclaration_ne_entry rest p.1 p.2))
  | .mk id (some i) :: rest =>
    exact exceptBind_ne_error (processExpr_ne_entry i src B) (fun src1 =>
      exceptBind_ne_error (processDeclarationId_ne_entry id src1 B)
        (fun p => processVariableDeclaration_ne_entry rest p.1 p.2))

end

/-- C8: `compile` fails with the EntryPointNotFound error ("No app() call
found") iff no top-level statement is a bare call expression statement whose
callee, after unwrapping chains of call-on-call and member-access-on-call,
resolves to the identifier `app` (first conjunct); otherwise the first such
statement is selected as the entry call, the remaining statements in order
becoming the locals list and both buffers being pre-seeded with the
corresponding removals (second conjunct); the forms `app(() => {})`,
`app.config().run(() => {})` and `app()(() => {})` are all recognized (third
to fifth conjuncts), and an input with no such call fails end to end with
that error (sixth conjunct). -/
theorem c8_entry_point_found_iff :
    (∀ (statements : List Stmt) (src : String),
      compile statements src = .error .noAppCallFound ↔
        ∀ st ∈ statements, isEntryStmt st = false)
    ∧ (∀ (src : String) (pre post : List Stmt) (callee : Callee) (args : List Expr) (s e : Nat),
      (∀ st ∈ pre, isEntryStmt st = false) → isCalleeApp callee = true →
      parse (pre ++ .exprStmt (.call callee args s e) :: post) src =
        .ok { localsAst := pre ++ post
              localsSrc := { original := src, edits := [.remove s e] }
              mainAst := .call callee args s e
              mainSrc := { original := src, edits := [.remove 0 s, .remove e src.length] } })
    ∧ isEntryStmt (.exprStmt (.call (.expr (.ident "app" 0 3))
        [.arrow [] (.stmt (.block [])) 4 12] 0 13)) = true
    ∧ isEntryStmt (.exprStmt (.call (.expr (.member
        (.call (.expr (.member (.ident "app" 0 3) (.ident "config" 4 10) 0 10)) [] 0 12)
        (.ident "run" 13 16) 0 16))
        [.arrow [] (.stmt (.block [])) 17 25] 0 26)) = true
    ∧ isEntryStmt (.exprStmt (.call (.expr (.call (.expr (.ident "app" 0 3)) [] 0 5))
        [.arrow [] (.stmt (.block [])) 6 14] 0 15)) = true
    ∧ compile [.varDecl .klet [.mk (.lident "x" 4 5) none]] "let x;" =
        .error .noAppCallFound := by
  refine ⟨?_, ?_, rfl, rfl, rfl, rfl⟩
  · intro statements src
    have hc : compile statements src =
        parse statements src >>= (fun parseResult =>
          getBindings parseResult.localsAst parseResult.localsSrc >>= fun bindings =>
          processExpr parseResult.mainAst parseResult.mainSrc
              ((bindings.map (fun b => b.name)).eraseDups) >>= fun mainSrc1 =>
          wrapMain parseResult.mainAst mainSrc1 >>= fun mainOut =>
          .ok { locals := appendExport parseResult.localsSrc bindings, main := mainOut }) := rfl
    constructor
    · intro h
      rw [hc] at h
      cases hp : parse statements src with
      | error E =>
        rw [hp, exceptError_bind] at h
        injection h with hE
        rw [hE] at hp
        exact (parse_error_iff statements src).mp hp
      | ok pr =>
        rw [hp, exceptOk_bind] at h
        exact absurd h (exceptBind_ne_error (getBindings_ne pr.localsAst pr.localsSrc)
          (fun bindings => exceptBind_ne_error
            (processExpr_ne_entry pr.mainAst pr.mainSrc
              ((bindings.map (fun b => b.name)).eraseDups))
            (fun mainSrc1 => exceptBind_ne_error (wrapMain_ne pr.mainAst mainSrc1)
              (fun mainOut => nofun))))
    · intro hall
      rw [hc, (parse_error_iff statements src).mpr hall, exceptError_bind]
  · intro src pre post callee args s e hpre hc
    calc parse (pre ++ .exprStmt (.call callee args s e) :: post) src
        = parseLoop src (pre ++ .exprStmt (.call callee args s e) :: post) (0 + pre.length)
            (.exprStmt (.call callee args s e) :: post) :=
          parseLoop_skip_prefix src (pre ++ .exprStmt (.call callee args s e) :: post) pre hpre 0
            (.exprStmt (.call callee args s e) :: post)
      _ = .ok { localsAst := (pre ++ .exprStmt (.call callee args s e) :: post).eraseIdx
                  (0 + pre.length)
                localsSrc := { original := src, edits := [.remove s e] }
                mainAst := .call callee args s e
                mainSrc := { original := src, edits := [.remove 0 s, .remove e src.length] } } :=
          parseLoop_entry src (pre ++ .exprStmt (.call callee args s e) :: post) (0 + pre.length)
            callee args s e post hc
      _ = .ok { localsAst := pre ++ post
                localsSrc := { original := src, edits := [.remove s e] }
                mainAst := .call callee args s e
                mainSrc := { original := src, edits := [.remove 0 s, .remove e src.length] } } := by
          rw [Nat.zero_add, eraseIdx_append_length]

/-- Witness for the hypotheses of `c8_entry_point_found_iff`: a concrete
prefix of one non-entry statement before the entry call `app()` in
`let x; app();`, with both hypotheses discharged by evaluation. -/
theorem c8_entry_point_found_iff_witness :
    parse ([.varDecl .klet [.mk (.lident "x" 4 5) none]] ++
        .exprStmt (.call (.expr (.ident "app" 7 10)) [] 7 12) :: []) "let x; app();" =
      .ok { localsAst := [.varDecl .klet [.mk (.lident "x" 4 5) none]] ++ []
            localsSrc := { original := "let x; app();", edits := [.remove 7 12] }
            mainAst := .call (.expr (.ident "app" 7 10)) [] 7 12
            mainSrc := { original := "let x; app();"
                         edits := [.remove 0 7, .remove 12 ("let x; app();").length] } } :=
  c8_entry_point_found_iff.2.1 "let x; app();"
    [.varDecl .klet [.mk (.lident "x" 4 5) none]] []
    (.expr (.ident "app" 7 10)) [] 7 12
    (by intro st hst; rw [List.mem_singleton.mp hst]; rfl) rfl
